import Mathlib

/-!
Verification of the PINN-DATA collection pipeline (nist_scraper.py,
quick_data_collection.py, main_data_collection.py).

The source is shallowly embedded: Python floats are modelled by the type
PyFloat (an exact rational, or one of the three non-finite IEEE values,
which Python float parsing and comparisons can produce); strings are
modelled as Lean strings and all character-level operations are written
out over List Char so that every definition is executable; fallible
operations return Option.  Ambient effects are explicit parameters:
the salted Python string hash is a parameter pyHash, np.random.normal
draws are streams of rationals (np.random.normal always returns finite
floats), np.log is a parameter ln (its values never matter for the
claims proved here), and network and file-system outcomes are oracle
parameters.  Decimal-to-binary rounding of IEEE doubles is not
modelled: values are exact rationals, and no claim proved here depends
on rounding.
-/

/-- Model of a Python float value: an exact rational, +inf, -inf or NaN.
Python float parsing can produce the non-finite values from the literals
inf / infinity / nan (case-insensitive, optional sign). -/
inductive PyFloat where
  | finite (q : ℚ)
  | pinf
  | ninf
  | nan
deriving DecidableEq

/-- Python float strict comparison a < b.  Any comparison with NaN is false. -/
def PyFloat.ltb : PyFloat → PyFloat → Bool
  | .finite a, .finite b => a < b
  | .finite _, .pinf => true
  | .ninf, .finite _ => true
  | .ninf, .pinf => true
  | _, _ => false

/-- Python float comparison a <= b.  Any comparison with NaN is false. -/
def PyFloat.leb : PyFloat → PyFloat → Bool
  | .finite a, .finite b => a ≤ b
  | .finite _, .pinf => true
  | .ninf, .finite _ => true
  | .ninf, .pinf => true
  | .ninf, .ninf => true
  | .pinf, .pinf => true
  | _, _ => false

/-- Whether a PyFloat is NaN (used to model pandas dropna). -/
def PyFloat.isNanB : PyFloat → Bool
  | .nan => true
  | _ => false

/-- Whether a PyFloat is finite. -/
def PyFloat.finiteB : PyFloat → Bool
  | .finite _ => true
  | _ => false

/-- Whether a PyFloat is a finite value lying in the closed interval
from a to b.  This is the mathematical reading of the phrase
"within [a, b]" used by the specification. -/
def PyFloat.isFiniteIn : PyFloat → ℚ → ℚ → Bool
  | .finite q, a, b => a ≤ q ∧ q ≤ b
  | _, _, _ => false

/-! ## Character-level utilities (Python str methods used by the scraper) -/

/-- ASCII decimal digit test (the regular expression class of digits;
only ASCII digits are relevant to the claims). -/
def isDigitC (c : Char) : Bool :=
  48 ≤ c.toNat ∧ c.toNat ≤ 57

/-- Python str.strip whitespace (ASCII whitespace characters). -/
def isSpaceC (c : Char) : Bool :=
  c = ' ' ∨ c = '\t' ∨ c = '\n' ∨ c = '\r' ∨ c = '\x0b' ∨ c = '\x0c'

/-- Python str.strip on a character list. -/
def trimL (l : List Char) : List Char :=
  ((l.dropWhile isSpaceC).reverse.dropWhile isSpaceC).reverse

/-- Python str.lower for ASCII letters (the labels and headers in the
claims are ASCII). -/
def lowerC (c : Char) : Char :=
  if 65 ≤ c.toNat ∧ c.toNat ≤ 90 then Char.ofNat (c.toNat + 32) else c

/-- Lowercase a character list. -/
def lowerL (l : List Char) : List Char := l.map lowerC

/-- Does the pattern (first argument) occur at the head of the list? -/
def leadsWith : List Char → List Char → Bool
  | [], _ => true
  | _ :: _, [] => false
  | a :: as, b :: bs => a == b && leadsWith as bs

/-- Does the pattern occur anywhere in the list (Python substring test)? -/
def subSearch (pat : List Char) : List Char → Bool
  | [] => pat.isEmpty
  | c :: rest => leadsWith pat (c :: rest) || subSearch pat rest

/-- Python substring containment: pat in hay. -/
def strContains (hay pat : String) : Bool := subSearch pat.data hay.data

/-- Python str.strip of a string. -/
def pyStrip (s : String) : String := String.mk (trimL s.data)

/-- Python str.lower of a string. -/
def pyLower (s : String) : String := String.mk (lowerL s.data)

/-! ## The numeric field extractor: NISTChemicalDataScraper._parse_number

The source first rejects empty text and the bare dash, then strips the
text and removes every character not matched by a class that lists the
digits, the dot, the three characters plus, hyphen, e (which inside a
class form a RANGE: every code point from 43 (plus) to 101 (e) is
kept), uppercase E, and the multiplication sign.  The multiplication
sign is then mapped to e.  If the ORIGINAL text contained a plus-minus
sign, the cleaned text is split on that sign and the part before it is
kept (the sign never survives the cleaning, so this split never
removes anything).  Then float() is attempted on the cleaned text, and
on failure the first substring of the stripped text matching
[-+]?[0-9]*[.]?[0-9]+([eE][-+]?[0-9]+)? is parsed instead.

All control flow below is over Nat, Int, Bool and lists, and the final
rational value is assembled by the single function decValue, so the
parsing pipeline evaluates by kernel reduction.
-/

/-- Characters kept by the cleaning substitution in _parse_number:
digits, the dot, the code-point range from plus (43) to lowercase
e (101), uppercase E, and the multiplication sign. -/
def keepC (c : Char) : Bool :=
  isDigitC c || c == '.' || (43 ≤ c.toNat && c.toNat ≤ 101) || c == 'E' || c == '×'

/-- Value of a digit list read as a base-10 natural number. -/
def digitsNat (l : List Char) : ℕ :=
  l.foldl (fun acc c => acc * 10 + (c.toNat - 48)) 0

/-- Exact value of a parsed decimal: sign, mantissa digits read as a
natural number, number of fractional digits, and decimal exponent.
This is the exact value of the literal [sign] D1 . D2 e E with
m the digits of D1 followed by D2, k the length of D2. -/
def decValue (neg : Bool) (m : ℕ) (k : ℕ) (e : ℤ) : ℚ :=
  (if neg then (-1 : ℚ) else 1) * ((m : ℚ) / (10 : ℚ) ^ k) * (10 : ℚ) ^ e

/-- The exponent part accepted by Python float() after the mantissa:
either nothing, or e/E, an optional sign and at least one digit,
consuming the whole rest of the string.  Returns the signed exponent. -/
def floatExpTail : List Char → Option ℤ
  | [] => some 0
  | c :: rest =>
    if c == 'e' || c == 'E' then
      match rest with
      | '+' :: t =>
        if (t.takeWhile isDigitC).isEmpty || !(t.dropWhile isDigitC).isEmpty then none
        else some (digitsNat (t.takeWhile isDigitC) : ℤ)
      | '-' :: t =>
        if (t.takeWhile isDigitC).isEmpty || !(t.dropWhile isDigitC).isEmpty then none
        else some (-(digitsNat (t.takeWhile isDigitC) : ℤ))
      | t =>
        if (t.takeWhile isDigitC).isEmpty || !(t.dropWhile isDigitC).isEmpty then none
        else some (digitsNat (t.takeWhile isDigitC) : ℤ)
    else none

/-- Python float() on a sign-free, whitespace-free string: one of the
literals inf / infinity / nan (case-insensitive), or a decimal mantissa
with an optional exponent.  The boolean records a leading minus sign
already consumed by the caller. -/
def pyFloatUnsigned (l1 : List Char) (neg : Bool) : Option PyFloat :=
  if lowerL l1 = "inf".data || lowerL l1 = "infinity".data then
    some (if neg then .ninf else .pinf)
  else if lowerL l1 = "nan".data then
    some .nan
  else
    let d1 := l1.takeWhile isDigitC
    let l2 := l1.dropWhile isDigitC
    match l2 with
    | '.' :: l3 =>
      let d2 := l3.takeWhile isDigitC
      let l4 := l3.dropWhile isDigitC
      if d1.isEmpty && d2.isEmpty then none
      else
        match floatExpTail l4 with
        | none => none
        | some e => some (.finite (decValue neg (digitsNat (d1 ++ d2)) d2.length e))
    | _ =>
      if d1.isEmpty then none
      else
        match floatExpTail l2 with
        | none => none
        | some e => some (.finite (decValue neg (digitsNat d1) 0 e))

/-- Model of Python float() applied to a whitespace-free string: an
optional sign, then a literal or a decimal number, consuming the whole
string.  The value is kept as an exact rational.  (Underscore digit
separators, legal in Python numeric literals, are not modelled; no
claim here involves them.) -/
def pyFloatOfChars : List Char → Option PyFloat
  | '+' :: l1 => pyFloatUnsigned l1 false
  | '-' :: l1 => pyFloatUnsigned l1 true
  | l1 => pyFloatUnsigned l1 false

/-- Optional exponent of the fallback regular expression group
([eE][-+]?[0-9]+)? : the signed exponent when the group matches at the
head of the list, otherwise 0 (the match simply ends before it). -/
def reExpOpt (l : List Char) : ℤ :=
  match l with
  | c :: rest =>
    if c == 'e' || c == 'E' then
      match rest with
      | '+' :: t =>
        if (t.takeWhile isDigitC).isEmpty then 0
        else (digitsNat (t.takeWhile isDigitC) : ℤ)
      | '-' :: t =>
        if (t.takeWhile isDigitC).isEmpty then 0
        else (-(digitsNat (t.takeWhile isDigitC) : ℤ))
      | t =>
        if (t.takeWhile isDigitC).isEmpty then 0
        else (digitsNat (t.takeWhile isDigitC) : ℤ)
    else 0
  | [] => 0

/-- Greedy match of the sign-free part of the fallback pattern
[0-9]*[.]?[0-9]+([eE][-+]?[0-9]+)? with Python backtracking semantics:
for digits followed by a bare dot with no digit after it, the match
backtracks and ends before the dot.  Returns the value of the matched
substring with the sign applied. -/
def reMatchUnsigned (l1 : List Char) (neg : Bool) : Option ℚ :=
  let d1 := l1.takeWhile isDigitC
  let l2 := l1.dropWhile isDigitC
  match l2 with
  | '.' :: l3 =>
    let d2 := l3.takeWhile isDigitC
    let l4 := l3.dropWhile isDigitC
    if d2.isEmpty then
      if d1.isEmpty then none
      else some (decValue neg (digitsNat d1) 0 0)
    else
      some (decValue neg (digitsNat (d1 ++ d2)) d2.length (reExpOpt l4))
  | _ =>
    if d1.isEmpty then none
    else some (decValue neg (digitsNat d1) 0 (reExpOpt l2))

/-- Greedy match of the fallback pattern
[-+]?[0-9]*[.]?[0-9]+([eE][-+]?[0-9]+)? at the head of the list. -/
def reMatchNum : List Char → Option ℚ
  | '+' :: l1 => reMatchUnsigned l1 false
  | '-' :: l1 => reMatchUnsigned l1 true
  | l1 => reMatchUnsigned l1 false

/-- re.findall scanning: the value of the leftmost match of the
fallback pattern. -/
def reFindFirst : List Char → Option ℚ
  | [] => none
  | c :: rest =>
    match reMatchNum (c :: rest) with
    | some q => some q
    | none => reFindFirst rest

/-- NISTChemicalDataScraper._parse_number.  Total: always returns a
value or none, never raises (the except branch of the source is the
fallback modelled by the outer match).  Note that the cleaning keeps
every code point from 43 to 101 (the class contains the range plus to
e), and that the split on the plus-minus sign happens AFTER that sign
has already been removed by the cleaning, so it never removes
anything. -/
def parse_number (s : String) : Option PyFloat :=
  if s.data = [] || s = "-" then none
  else
    let t := trimL s.data
    let cleaned0 := t.filter keepC
    let cleaned1 := cleaned0.map (fun c => if c == '×' then 'e' else c)
    let cleaned := if t.contains '±' then cleaned1.takeWhile (fun c => c ≠ '±') else cleaned1
    match pyFloatOfChars cleaned with
    | some v => some v
    | none =>
      match reFindFirst t with
      | some q => some (.finite q)
      | none => none

/-! ## The thermodynamic table parser:
NISTChemicalDataScraper._parse_thermodynamic_tables

An HTML table is abstracted to the text of its th header cells and, for
every tr row, the list of texts of its td cells.  The source skips the
first tr of each table, requires at least one th cell, joins the
stripped th texts with single spaces, and keeps the table only if the
lowercased joined text contains one of the fixed keywords.  For every
kept row with at least two cells, column 0 is parsed as the
temperature and each later column i is parsed and stored positionally
(1 heat capacity, 2 entropy, 3 Gibbs, 4 enthalpy); the row is accepted
only if the temperature parses and is not rejected by the checks
temp < 50 or temp > 5000, and the heat capacity parses with cp > 0
(Python float comparisons: NaN passes the temperature checks and fails
the cp check). -/

/-- One parsed record of the thermodynamic table (one appended row of
the parallel lists of the source).  temperature and heat_capacity are
always present in an accepted row; the other three may be absent. -/
structure ThermoRecord where
  temperature : PyFloat
  heat_capacity : PyFloat
  entropy : Option PyFloat
  enthalpy_minus_h298 : Option PyFloat
  gibbs_free_energy : Option PyFloat
deriving DecidableEq

/-- An HTML table as seen by the parser: the texts of its th cells and,
for each tr in document order, the texts of its td cells. -/
structure HTable where
  headers : List String
  rows : List (List String)

/-- The fixed keyword set of _parse_thermodynamic_tables. -/
def thermo_keywords : List String :=
  ["temperature", "heat capacity", "entropy", "cp°", "cp",
   "enthalpy", "gibbs", "janaf", "thermodynamic"]

/-- Join the stripped header-cell texts with single spaces. -/
def joinHeaders : List String → List Char
  | [] => []
  | [h] => trimL h.data
  | h :: h2 :: t => trimL h.data ++ ' ' :: joinHeaders (h2 :: t)

/-- Whether a table qualifies as thermodynamic: it has at least one th
cell and the lowercased joined header text contains a keyword. -/
def thermoQualifies (t : HTable) : Bool :=
  !t.headers.isEmpty &&
    thermo_keywords.any (fun kw => subSearch kw.data (lowerL (joinHeaders t.headers)))

/-- The value parse_number gives to cell i of a row (cells are stripped
before parsing, as in the source); none when the column is missing. -/
def cellValue (cells : List String) (i : ℕ) : Option PyFloat :=
  match cells.get? i with
  | none => none
  | some s => parse_number (pyStrip s)

/-- Parse one data row: accepted only when the first column parses to a
temperature that is not rejected by the checks temp < 50 or
temp > 5000, and the second column parses to a heat capacity with
cp > 0.  Columns 2, 3 and 4 are stored as entropy, Gibbs free energy
and enthalpy respectively when they parse; all later columns are
parsed and discarded. -/
def parseThermoRow (cells : List String) : Option ThermoRecord :=
  if 2 ≤ cells.length then
    match cellValue cells 0 with
    | none => none
    | some temp =>
      if temp.ltb (.finite 50) || (PyFloat.finite 5000).ltb temp then none
      else
        match cellValue cells 1 with
        | none => none
        | some cp =>
          if (PyFloat.finite 0).ltb cp then
            some { temperature := temp, heat_capacity := cp,
                   entropy := cellValue cells 2,
                   gibbs_free_energy := cellValue cells 3,
                   enthalpy_minus_h298 := cellValue cells 4 }
          else none
  else none

/-- Records contributed by one table: none unless the table qualifies;
the first tr is skipped, and non-accepted rows are silently dropped. -/
def parseThermoTable (t : HTable) : List ThermoRecord :=
  if thermoQualifies t then (t.rows.drop 1).filterMap parseThermoRow else []

/-- All records of a document, in document order. -/
def thermoRecordsOfTables (tabs : List HTable) : List ThermoRecord :=
  tabs.flatMap parseThermoTable

/-- _parse_thermodynamic_tables: a DataFrame when at least one record
was accepted anywhere, the distinct no-data signal (none) otherwise. -/
def parse_thermodynamic_tables (tabs : List HTable) : Option (List ThermoRecord) :=
  if (thermoRecordsOfTables tabs).isEmpty then none else some (thermoRecordsOfTables tabs)

/-! ## The phase-change parser:
NISTChemicalDataScraper._parse_phase_change_data

Every row of every table with at least two cells is treated as a
property-name label (cell 0, stripped and lowercased) and a value
(cell 1, parsed by _parse_number).  Classification is by substring
tests, with the temperature/point branch checked BEFORE the enthalpy
branch inside each family.  Later matching rows overwrite earlier
ones. -/

/-- The sparse phase-change property mapping. -/
structure PhaseData where
  boiling_point_K : Option PyFloat
  melting_point_K : Option PyFloat
  heat_of_vaporization : Option PyFloat
  heat_of_fusion : Option PyFloat
deriving DecidableEq

/-- The empty phase-change mapping. -/
def emptyPhase : PhaseData := ⟨none, none, none, none⟩

/-- Substring test on the lowercased stripped label of a row. -/
def labelHas (cells : List String) (kw : String) : Bool :=
  subSearch kw.data (lowerL (trimL (cells.getD 0 "").data))

/-- Process one row of a phase-change table. -/
def classifyPhaseRow (ph : PhaseData) (cells : List String) : PhaseData :=
  if 2 ≤ cells.length then
    match cellValue cells 1 with
    | none => ph
    | some v =>
      if labelHas cells "boiling" || labelHas cells "vaporization" then
        if labelHas cells "temperature" || labelHas cells "point" then
          { ph with boiling_point_K := some v }
        else if labelHas cells "enthalpy" then
          { ph with heat_of_vaporization := some v }
        else ph
      else if labelHas cells "melting" || labelHas cells "fusion" then
        if labelHas cells "temperature" || labelHas cells "point" then
          { ph with melting_point_K := some v }
        else if labelHas cells "enthalpy" then
          { ph with heat_of_fusion := some v }
        else ph
      else ph
  else ph

/-- _parse_phase_change_data over all rows of all tables (phase-change
tables are scanned without skipping any row). -/
def parse_phase_change_data (tabs : List (List (List String))) : PhaseData :=
  tabs.foldl (fun ph rows => rows.foldl classifyPhaseRow ph) emptyPhase

/-! ## Data model of the orchestrator (quick_data_collection.py,
main_data_collection.py) -/

/-- The static molecular-properties entry: molecular weight, atom
count, polarity flag (the source stores ints 0/1). -/
structure MolProps where
  molecular_weight : ℚ
  n_atoms : ℕ
  is_polar : ℕ
deriving DecidableEq

/-- get_molecular_properties: fixed lookup with default
molecular_weight 50, n_atoms 5, is_polar 0 for unknown compounds. -/
def get_molecular_properties (c : String) : MolProps :=
  if c = "H2O" then ⟨18015/1000, 3, 1⟩
  else if c = "CO2" then ⟨4401/100, 3, 0⟩
  else if c = "CH4" then ⟨1604/100, 5, 0⟩
  else if c = "NH3" then ⟨1703/100, 4, 1⟩
  else if c = "C2H5OH" then ⟨4607/100, 9, 1⟩
  else if c = "N2" then ⟨2801/100, 2, 0⟩
  else if c = "O2" then ⟨32, 2, 0⟩
  else if c = "C6H6" then ⟨7811/100, 12, 0⟩
  else if c = "C8H18" then ⟨11423/100, 26, 0⟩
  else if c = "NaCl" then ⟨5844/100, 2, 1⟩
  else ⟨50, 5, 0⟩

/-- One compound's scrape result (the dict built by
scrape_compound_data): formula, compound id, thermodynamic DataFrame
or the no-data signal, and the phase-change mapping. -/
structure CompoundData where
  formula : String
  compound_id : String
  thermodynamic_data : Option (List ThermoRecord)
  phase_change_data : PhaseData
deriving DecidableEq

/-- One row of the final training table.  compound_id is the Python
hash of the compound name reduced modulo 1000; the hash itself is an
ambient parameter (Python string hashing is salted per process). -/
structure TrainingSample where
  compound : String
  compound_id : ℤ
  temperature : PyFloat
  heat_capacity : PyFloat
  entropy : PyFloat
  enthalpy_minus_h298 : PyFloat
  molecular_weight : ℚ
  n_atoms : ℕ
  is_polar : ℕ
deriving DecidableEq

/-- Build one training sample from an accepted record (the dict built
in the row loop of process_for_training).  row.get of a present column
returns its value, with absent entries read as NaN by pandas. -/
def mkSample (pyHash : String → ℤ) (compound : String) (r : ThermoRecord) : TrainingSample :=
  { compound := compound
    compound_id := pyHash compound % 1000
    temperature := r.temperature
    heat_capacity := r.heat_capacity
    entropy := r.entropy.getD .nan
    enthalpy_minus_h298 := r.enthalpy_minus_h298.getD .nan
    molecular_weight := (get_molecular_properties compound).molecular_weight
    n_atoms := (get_molecular_properties compound).n_atoms
    is_polar := (get_molecular_properties compound).is_polar }

/-- The per-compound body of process_for_training: drop rows whose
temperature or heat capacity is NaN (pandas dropna), keep rows with
200 <= temperature <= 2000 under Python float comparisons, and build
one sample per surviving row. -/
def processRecords (pyHash : String → ℤ) (compound : String)
    (recs : List ThermoRecord) : List TrainingSample :=
  ((recs.filter (fun r => !r.temperature.isNanB && !r.heat_capacity.isNanB)).filter
      (fun r => (PyFloat.finite 200).leb r.temperature && r.temperature.leb (.finite 2000))).map
    (mkSample pyHash compound)

/-- process_for_training: for every compound with present
thermodynamic data, flatten the filtered rows into training samples. -/
def process_for_training (pyHash : String → ℤ)
    (raw : List (String × CompoundData)) : List TrainingSample :=
  raw.flatMap (fun p =>
    match p.2.thermodynamic_data with
    | none => []
    | some recs => processRecords pyHash p.1 recs)

/-! ## The synthetic generator: generate_synthetic_supplement -/

/-- The fixed compound set of the synthetic generator. -/
def syntheticCompounds : List String :=
  ["H2O", "CO2", "CH4", "NH3", "C2H5OH", "N2", "O2", "C6H6", "C8H18", "NaCl"]

/-- np.linspace over the rationals: n evenly spaced points from a to b
inclusive (numpy pins the last point to b; in exact arithmetic the
formula below gives exactly b at index n-1). -/
def linspaceQ (a b : ℚ) (n : ℕ) : List ℚ :=
  (List.range n).map (fun (i : ℕ) => a + (i : ℚ) * ((b - a) / ((n : ℚ) - 1)))

/-- Rows generated per compound:
max((100 - existing) // 10, 5) with Python semantics, which for a
natural-number count coincides with Nat subtraction and division. -/
def samplesPerCompound (existing : ℕ) : ℕ :=
  max ((100 - existing) / 10) 5

/-- One synthetic sample: heat capacity 20 + 5*n_atoms + 0.01 T +
1e-6 T^2 plus a Gaussian draw, clamped below at 10; entropy
150 + 20 ln T + 10*n_atoms plus a draw, clamped below at 0; enthalpy a
pure draw.  The three noise streams and the logarithm are ambient
parameters; the draw index k is the flat position of the sample. -/
def syntheticSample (pyHash : String → ℤ) (ln : ℚ → ℚ) (nCp nS nH : ℕ → ℚ)
    (spc ci ti : ℕ) (c : String) (temp : ℚ) : TrainingSample :=
  let props := get_molecular_properties c
  let k := ci * spc + ti
  let cp : ℚ := (20 + props.n_atoms * 5) + ((1/100) * temp + (1/1000000) * temp ^ 2) + nCp k
  let ent : ℚ := 150 + ln temp * 20 + props.n_atoms * 10 + nS k
  { compound := c
    compound_id := pyHash c % 1000
    temperature := .finite temp
    heat_capacity := .finite (max cp 10)
    entropy := .finite (max ent 0)
    enthalpy_minus_h298 := .finite (nH k)
    molecular_weight := props.molecular_weight
    n_atoms := props.n_atoms
    is_polar := props.is_polar }

/-- The rows generated for the compound with index ci: one sample per
linspace temperature. -/
def syntheticBlock (pyHash : String → ℤ) (ln : ℚ → ℚ) (nCp nS nH : ℕ → ℚ)
    (spc ci : ℕ) (c : String) : List TrainingSample :=
  (linspaceQ 200 2000 spc).enum.map
    (fun p => syntheticSample pyHash ln nCp nS nH spc ci p.1 c p.2)

/-- generate_synthetic_supplement. -/
def generate_synthetic_supplement (pyHash : String → ℤ) (ln : ℚ → ℚ)
    (nCp nS nH : ℕ → ℚ) (existing : ℕ) : List TrainingSample :=
  syntheticCompounds.enum.flatMap
    (fun p => syntheticBlock pyHash ln nCp nS nH (samplesPerCompound existing) p.1 p.2)

/-! ## collect_hackathon_dataset and the top level (main) -/

/-- collect_hackathon_dataset, given the raw per-compound data its
scrape loop accumulated: process, and append a synthetic supplement
when fewer than 50 rows were produced. -/
def collect_hackathon_dataset (pyHash : String → ℤ) (ln : ℚ → ℚ)
    (nCp nS nH : ℕ → ℚ) (raw : List (String × CompoundData)) : List TrainingSample :=
  let training := process_for_training pyHash raw
  if training.length < 50 then
    training ++ generate_synthetic_supplement pyHash ln nCp nS nH training.length
  else training

/-- Outcome of running the collection pipeline: either it returns the
accumulated raw data, or some exception escapes it. -/
inductive PipelineRun where
  | ok (raw : List (String × CompoundData))
  | failed

/-- main of main_data_collection.py (named mainPipeline, since Lean reserves main): the try branch returns the
collected dataset; any exception is caught and replaced by
generate_synthetic_supplement(0). -/
def mainPipeline (pyHash : String → ℤ) (ln : ℚ → ℚ) (nCp nS nH : ℕ → ℚ) :
    PipelineRun → List TrainingSample
  | .ok raw => collect_hackathon_dataset pyHash ln nCp nS nH raw
  | .failed => generate_synthetic_supplement pyHash ln nCp nS nH 0

/-! ## Serialization: save_data / load_data

save_data converts each thermodynamic DataFrame to a list of records
whose absent entries are NaN (pandas holds absent numeric entries as
NaN, and the json module round-trips NaN); load_data converts each
truthy record list back to a DataFrame.  An empty record list is falsy
in Python and would be left as a plain list (on which a subsequent
process_for_training would fail); the parser never produces an empty
DataFrame, so this corner is excluded by hypothesis where it
matters. -/

/-- One serialized record: all five columns concrete, absent entries
as NaN. -/
structure ThermoRecordSer where
  temperature : PyFloat
  heat_capacity : PyFloat
  entropy : PyFloat
  enthalpy_minus_h298 : PyFloat
  gibbs_free_energy : PyFloat
deriving DecidableEq

/-- One compound's serialized entry (the dict written by save_data). -/
structure CompoundDataSer where
  formula : String
  compound_id : String
  phase_change_data : PhaseData
  thermodynamic_data : Option (List ThermoRecordSer)
deriving DecidableEq

/-- DataFrame.to_dict(records) for one row. -/
def serRecord (r : ThermoRecord) : ThermoRecordSer :=
  ⟨r.temperature, r.heat_capacity, r.entropy.getD .nan,
   r.enthalpy_minus_h298.getD .nan, r.gibbs_free_energy.getD .nan⟩

/-- save_data. -/
def save_data (d : List (String × CompoundData)) : List (String × CompoundDataSer) :=
  d.map (fun p =>
    (p.1, ⟨p.2.formula, p.2.compound_id, p.2.phase_change_data,
           p.2.thermodynamic_data.map (List.map serRecord)⟩))

/-- pd.DataFrame applied to one loaded record: every column is now
present (possibly NaN). -/
def loadRecord (r : ThermoRecordSer) : ThermoRecord :=
  ⟨r.temperature, r.heat_capacity, some r.entropy,
   some r.enthalpy_minus_h298, some r.gibbs_free_energy⟩

/-- load_data: a truthy (nonempty) record list is converted back to a
DataFrame; none and the falsy empty list are left as they are. -/
def load_data (d : List (String × CompoundDataSer)) : List (String × CompoundData) :=
  d.map (fun p =>
    (p.1, ⟨p.2.formula, p.2.compound_id,
           match p.2.thermodynamic_data with
           | none => none
           | some l => if l.isEmpty then some [] else some (l.map loadRecord),
           p.2.phase_change_data⟩))

/-! ## The checkpointing scrape loop:
NISTChemicalDataScraper.scrape_multiple_compounds

The per-compound network interaction is abstracted by an outcome
oracle: for the i-th compound, scrape_compound_data either raises, or
returns a falsy result, or returns data.  The file system is
abstracted by an oracle saying whether the i-th checkpoint write
raises.  A write that raises is caught by the per-compound except
handler (which then continues with the next compound); a write that
succeeds is recorded in the trace together with the serialized
accumulated results. -/

/-- Outcome of scrape_compound_data for one compound. -/
inductive ScrapeOutcome where
  | errors
  | nodata
  | found (d : CompoundData)

/-- Python dict assignment d[k] = v on an insertion-ordered
association list: replace in place or append. -/
def dictInsert (l : List (String × CompoundData)) (k : String) (v : CompoundData) :
    List (String × CompoundData) :=
  match l with
  | [] => [(k, v)]
  | (k1, v1) :: t => if k1 = k then (k1, v) :: t else (k1, v1) :: dictInsert t k v

/-- Loop state: the accumulated results dict and the trace of
successful checkpoint writes (index and content). -/
structure ScrapeState where
  results : List (String × CompoundData)
  writes : List (ℕ × List (String × CompoundData))
deriving DecidableEq

/-- One iteration of the scrape loop, for the i-th compound. -/
def scrapeStep (sp : Bool) (wf : ℕ → Bool) (st : ScrapeState) (i : ℕ)
    (out : ScrapeOutcome) (c : String) : ScrapeState :=
  match out with
  | .errors => st
  | .nodata => st
  | .found d =>
    let res := dictInsert st.results c d
    if sp && (i + 1) % 5 == 0 then
      if wf i then ⟨res, st.writes⟩ else ⟨res, st.writes ++ [(i, res)]⟩
    else ⟨res, st.writes⟩

/-- The scrape loop from position i. -/
def scrapeLoop (outs : ℕ → ScrapeOutcome) (wf : ℕ → Bool) (sp : Bool) :
    ℕ → ScrapeState → List String → ScrapeState
  | _, st, [] => st
  | i, st, c :: rest => scrapeLoop outs wf sp (i + 1) (scrapeStep sp wf st i (outs i) c) rest

/-- scrape_multiple_compounds. -/
def scrape_multiple_compounds (outs : ℕ → ScrapeOutcome) (wf : ℕ → Bool)
    (sp : Bool) (cs : List String) : ScrapeState :=
  scrapeLoop outs wf sp 0 ⟨[], []⟩ cs

/-- The pure results accumulation of the scrape loop (write outcomes
never influence it); used to state and prove the frame property. -/
def resultsOnly (outs : ℕ → ScrapeOutcome) :
    ℕ → List (String × CompoundData) → List String → List (String × CompoundData)
  | _, res, [] => res
  | i, res, c :: rest =>
    resultsOnly outs (i + 1)
      (match outs i with
       | .found d => dictInsert res c d
       | _ => res) rest


/-- The first row of the emergency dataset at zeroed parameters (the
head of the generated list, written out explicitly). -/
def emergencyHead : TrainingSample :=
  syntheticSample (fun _ => 0) (fun _ => 0) (fun _ => 0) (fun _ => 0) (fun _ => 0)
    (samplesPerCompound 0) 0 0 "H2O"
    (200 + ((0 : ℕ) : ℚ) * ((2000 - 200) / ((samplesPerCompound 0 : ℚ) - 1)))


/-! # Theorems -/

/-! ## Auxiliary lemmas about the numeric extractor -/

theorem takeWhile_nil_of_none {p : Char → Bool} {l : List Char}
    (h : ∀ c ∈ l, p c = false) : l.takeWhile p = [] := by
  cases l with
  | nil => rfl
  | cons c t => simp [List.takeWhile_cons, h c (by simp)]

theorem dropWhile_self_of_none {p : Char → Bool} {l : List Char}
    (h : ∀ c ∈ l, p c = false) : l.dropWhile p = l := by
  cases l with
  | nil => rfl
  | cons c t => simp [List.dropWhile_cons, h c (by simp)]

theorem dropWhile_nil_of_all {p : Char → Bool} {l : List Char}
    (h : ∀ c ∈ l, p c = true) : l.dropWhile p = [] :=
  List.dropWhile_eq_nil_iff.mpr h

theorem reMatchUnsigned_none {l1 : List Char} (neg : Bool)
    (h : ∀ c ∈ l1, isDigitC c = false) : reMatchUnsigned l1 neg = none := by
  simp only [reMatchUnsigned]
  rw [takeWhile_nil_of_none h, dropWhile_self_of_none h]
  split
  next _ tail =>
    have ht2 : tail.takeWhile isDigitC = [] :=
      takeWhile_nil_of_none (fun c hc => h c (by simp [hc]))
    simp [ht2]
  next => simp

theorem reMatchNum_none {l : List Char} (h : ∀ c ∈ l, isDigitC c = false) :
    reMatchNum l = none := by
  cases l with
  | nil => exact reMatchUnsigned_none false h
  | cons c l1 =>
    by_cases hp : c = '+'
    · subst hp; exact reMatchUnsigned_none false (fun x hx => h x (by simp [hx]))
    · by_cases hm : c = '-'
      · subst hm; exact reMatchUnsigned_none true (fun x hx => h x (by simp [hx]))
      · have he : reMatchNum (c :: l1) = reMatchUnsigned (c :: l1) false := by
          unfold reMatchNum
          split
          next t heq => injection heq with h1 _; exact absurd h1 hp
          next t heq => injection heq with h1 _; exact absurd h1 hm
          next => rfl
        rw [he]
        exact reMatchUnsigned_none false h

theorem reFindFirst_none {l : List Char} (h : ∀ c ∈ l, isDigitC c = false) :
    reFindFirst l = none := by
  induction l with
  | nil => rfl
  | cons c t ih =>
    unfold reFindFirst
    rw [reMatchNum_none h]
    exact ih (fun x hx => h x (by simp [hx]))

/-- With no digit available, Python float() can only accept one of the
non-finite literals. -/
theorem pyFloatUnsigned_noDigit {l1 : List Char} (neg : Bool)
    (h : ∀ c ∈ l1, isDigitC c = false) :
    pyFloatUnsigned l1 neg = none ∨ ∃ v, pyFloatUnsigned l1 neg = some v ∧ v.finiteB = false := by
  unfold pyFloatUnsigned
  split
  · right
    cases neg <;> exact ⟨_, rfl, rfl⟩
  · split
    · exact Or.inr ⟨_, rfl, rfl⟩
    · left
      rw [takeWhile_nil_of_none h, dropWhile_self_of_none h]
      dsimp only
      cases l1 with
      | nil => rfl
      | cons c t =>
        by_cases hc : c = '.'
        · subst hc
          have ht2 : t.takeWhile isDigitC = [] :=
            takeWhile_nil_of_none (fun x hx => h x (by simp [hx]))
          simp [ht2]
        · split
          next a b => injection b with h1 h2; exact absurd h1 hc
          next => simp

theorem pyFloatOfChars_noDigit {l : List Char}
    (h : ∀ c ∈ l, isDigitC c = false) :
    pyFloatOfChars l = none ∨ ∃ v, pyFloatOfChars l = some v ∧ v.finiteB = false := by
  cases l with
  | nil => exact pyFloatUnsigned_noDigit false h
  | cons c l1 =>
    by_cases hp : c = '+'
    · subst hp; exact pyFloatUnsigned_noDigit false (fun x hx => h x (by simp [hx]))
    · by_cases hm : c = '-'
      · subst hm; exact pyFloatUnsigned_noDigit true (fun x hx => h x (by simp [hx]))
      · have he : pyFloatOfChars (c :: l1) = pyFloatUnsigned (c :: l1) false := by
          unfold pyFloatOfChars
          split
          next t heq => injection heq with h1 _; exact absurd h1 hp
          next t heq => injection heq with h1 _; exact absurd h1 hm
          next => rfl
        rw [he]
        exact pyFloatUnsigned_noDigit false h

theorem mem_trimL {c : Char} {l : List Char} (h : c ∈ trimL l) : c ∈ l := by
  unfold trimL at h
  rw [List.mem_reverse] at h
  have h1 := (List.dropWhile_sublist isSpaceC).mem h
  rw [List.mem_reverse] at h1
  exact (List.dropWhile_sublist isSpaceC).mem h1

/-- The cleaning pipeline of _parse_number creates no digit: its
characters come from the stripped text, except that the multiplication
sign is replaced by the letter e. -/
theorem cleaned_noDigit {t : List Char} (h : ∀ c ∈ t, isDigitC c = false)
    {c : Char}
    (hc : c ∈ (t.filter keepC).map (fun c => if c == '×' then 'e' else c)) :
    isDigitC c = false := by
  rw [List.mem_map] at hc
  obtain ⟨a, ha, rfl⟩ := hc
  by_cases hx : a = '×'
  · simp [hx]
    decide
  · rw [if_neg (by simpa using hx)]
    exact h a (List.mem_of_mem_filter ha)

/-- A digit-free input can only produce none or a non-finite value
(from an inf/infinity/nan literal surviving the cleaning). -/
theorem parse_number_noDigit {s : String} (h : ∀ c ∈ s.data, isDigitC c = false) :
    parse_number s = none ∨ ∃ v, parse_number s = some v ∧ v.finiteB = false := by
  unfold parse_number
  split
  · exact Or.inl rfl
  · dsimp only
    have ht : ∀ c ∈ trimL s.data, isDigitC c = false := fun c hc => h c (mem_trimL hc)
    have hcl : ∀ c ∈ (if (trimL s.data).contains '±' then
        (((trimL s.data).filter keepC).map
          (fun c => if c == '×' then 'e' else c)).takeWhile (fun c => c ≠ '±')
        else ((trimL s.data).filter keepC).map (fun c => if c == '×' then 'e' else c)),
        isDigitC c = false := by
      intro c hc
      split at hc
      · exact cleaned_noDigit ht ((List.takeWhile_sublist _).mem hc)
      · exact cleaned_noDigit ht hc
    rcases pyFloatOfChars_noDigit hcl with hnone | ⟨v, hv, hfin⟩
    · rw [hnone, reFindFirst_none ht]
      exact Or.inl rfl
    · rw [hv]
      exact Or.inr ⟨v, rfl, hfin⟩

/-! ## Claims C3, C4, C5: the numeric extractor -/

/-- Claim C3 is a code bug: the source comment says ranges written with
the plus-minus sign are handled by taking the first value, and the
specification says extract of the text 298 followed by plus-minus 2 is
298; but the split is performed on the CLEANED text, from which the
plus-minus sign (code point 177, outside the kept class) has already
been removed, so the digits of the uncertainty are concatenated onto
the value and the result is 2982, not 298. -/
theorem c3_plus_minus_eval :
    parse_number "298 ± 2" = some (.finite 2982) ∧ (2982 : ℚ) ≠ 298 := by
  constructor
  · have h : parse_number "298 ± 2" = some (.finite (decValue false 2982 0 0)) := rfl
    rw [h]
    norm_num [decValue]
  · norm_num

/-- Claim C4 is a code bug: the multiplication sign is indeed mapped to
e, but the caret and the digits 10 survive the cleaning (the caret,
code point 94, lies in the kept range 43..101), so the cleaned text
1.2e10^-3 fails float() and the fallback scan returns the FIRST number
1.2 of the original text: extract of 1.2 times 10 to the -3 is 1.2,
not the intended 0.0012 (which is what parsing 1.2e-3 gives). -/
theorem c4_sci_notation_eval :
    parse_number "1.2×10^-3" = some (.finite (6/5)) ∧
    parse_number "1.2e-3" = some (.finite (3/2500)) ∧ ((6 : ℚ)/5) ≠ 3/2500 := by
  refine ⟨?_, ?_, by norm_num⟩
  · have h : parse_number "1.2×10^-3" = some (.finite (decValue false 12 1 0)) := rfl
    rw [h]
    norm_num [decValue]
  · have h : parse_number "1.2e-3" = some (.finite (decValue false 12 1 (-3))) := rfl
    rw [h]
    norm_num [decValue]

/-- Claim C5 counterexample: the input INF contains no digit, and the
extractor's own fallback scan finds no numeric substring in it, yet
the extractor returns positive infinity rather than no value: the
uppercase letters I, N, F lie in the kept code-point range 43..101 and
Python float() accepts the literal INF. -/
theorem c5_counterexample :
    (∀ c ∈ "INF".data, isDigitC c = false) ∧ reFindFirst "INF".data = none ∧
      parse_number "INF" = some PyFloat.pinf ∧ parse_number "INF" ≠ none := by
  decide

/-- Claim C5 (amended): the extractor is total by construction (it is a
Lean function into Option, mirroring the two fallback layers of the
source, so it always returns a value or the explicit absence signal
and never raises); the empty string, the bare dash, and blank input
return no value; and an input containing no digit returns either no
value or a NON-FINITE value (inf, -inf or nan) arising from an
inf/infinity/nan literal that Python float() accepts. -/
theorem c5_total_extractor :
    parse_number "" = none ∧
    parse_number "-" = none ∧
    (∀ s : String, (∀ c ∈ s.data, isSpaceC c = true) → parse_number s = none) ∧
    (∀ s : String, (∀ c ∈ s.data, isDigitC c = false) →
      parse_number s = none ∨ ∃ v, parse_number s = some v ∧ v.finiteB = false) := by
  refine ⟨by decide, by decide, ?_, fun s h => parse_number_noDigit h⟩
  intro s hs
  unfold parse_number
  split
  · rfl
  · dsimp only
    have ht : trimL s.data = [] := by
      unfold trimL
      rw [dropWhile_nil_of_all hs]
      rfl
    rw [ht]
    decide

/-- Witness for C5: the letter-only input xyz (no digits, not a float
literal: x, y, z are outside the kept range) is settled by the
theorem. -/
theorem c5_witness :
    parse_number "xyz" = none ∨ ∃ v, parse_number "xyz" = some v ∧ v.finiteB = false :=
  c5_total_extractor.2.2.2 "xyz" (by decide)

/-! ## Claim C10: priority of the point branch in the phase-change parser -/

/-- Claim C10 (confirmed): in _parse_phase_change_data, a row label
containing boiling (or vaporization) together with a point/temperature
keyword stores its value under boiling_point_K even when the label also
contains enthalpy, because the temperature/point test is made first and
the enthalpy test sits in the elif; heat_of_vaporization is untouched.
Correspondingly for melting/fusion labels (which reach their branch
only when no boiling/vaporization keyword is present, since that outer
branch is tested first). -/
theorem c10_point_priority :
    (∀ (ph : PhaseData) (cells : List String) (v : PyFloat),
      2 ≤ cells.length → cellValue cells 1 = some v →
      (labelHas cells "boiling" = true ∨ labelHas cells "vaporization" = true) →
      (labelHas cells "temperature" = true ∨ labelHas cells "point" = true) →
      labelHas cells "enthalpy" = true →
      (classifyPhaseRow ph cells).boiling_point_K = some v ∧
        (classifyPhaseRow ph cells).heat_of_vaporization = ph.heat_of_vaporization) ∧
    (∀ (ph : PhaseData) (cells : List String) (v : PyFloat),
      2 ≤ cells.length → cellValue cells 1 = some v →
      labelHas cells "boiling" = false → labelHas cells "vaporization" = false →
      (labelHas cells "melting" = true ∨ labelHas cells "fusion" = true) →
      (labelHas cells "temperature" = true ∨ labelHas cells "point" = true) →
      labelHas cells "enthalpy" = true →
      (classifyPhaseRow ph cells).melting_point_K = some v ∧
        (classifyPhaseRow ph cells).heat_of_fusion = ph.heat_of_fusion) := by
  constructor
  · intro ph cells v h2 hv hB hTP hE
    rcases hB with hb | hb <;> rcases hTP with htp | htp <;>
      simp [classifyPhaseRow, h2, hv, hb, htp]
  · intro ph cells v h2 hv hb hvap hM hTP hE
    rcases hM with hm | hm <;> rcases hTP with htp | htp <;>
      simp [classifyPhaseRow, h2, hv, hb, hvap, hm, htp]

/-- Witness for C10: the row with label Enthalpy at boiling point and
value INF stores the value under boiling_point_K and leaves
heat_of_vaporization unset. -/
theorem c10_witness :
    (classifyPhaseRow emptyPhase ["Enthalpy at boiling point", "INF"]).boiling_point_K =
        some PyFloat.pinf ∧
      (classifyPhaseRow emptyPhase ["Enthalpy at boiling point", "INF"]).heat_of_vaporization =
        none :=
  c10_point_priority.1 emptyPhase _ _ (by decide) (by decide) (Or.inl (by decide))
    (Or.inr (by decide)) (by decide)

/-! ## Claim C2: the thermodynamic table parser -/

/-- Characterization of row acceptance in _parse_thermodynamic_tables:
a row is accepted exactly when it has at least two cells, its first
cell parses to a temperature that fails both rejection comparisons
(temp < 50, temp > 5000 under Python float semantics), and its second
cell parses to a heat capacity cp with 0 < cp; the accepted record
carries the positional columns 2 (entropy), 3 (Gibbs), 4 (enthalpy). -/
theorem parseThermoRow_eq_some_iff {cells : List String} {r : ThermoRecord} :
    parseThermoRow cells = some r ↔
      2 ≤ cells.length ∧
      ∃ tv cv, cellValue cells 0 = some tv ∧
        tv.ltb (.finite 50) = false ∧ (PyFloat.finite 5000).ltb tv = false ∧
        cellValue cells 1 = some cv ∧ (PyFloat.finite 0).ltb cv = true ∧
        r = ⟨tv, cv, cellValue cells 2, cellValue cells 4, cellValue cells 3⟩ := by
  unfold parseThermoRow
  by_cases h2 : 2 ≤ cells.length
  · rw [if_pos h2]
    cases h0 : cellValue cells 0 with
    | none => simp [h2]
    | some tv =>
      dsimp only
      by_cases hrej : (tv.ltb (.finite 50) || (PyFloat.finite 5000).ltb tv) = true
      · rw [if_pos hrej]
        rcases Bool.or_eq_true_iff.mp hrej with ha | ha <;> simp [h2, ha]
      · rw [if_neg hrej]
        rw [Bool.or_eq_true_iff] at hrej
        push_neg at hrej
        obtain ⟨ha, hb⟩ := hrej
        replace ha := Bool.eq_false_iff.mpr ha
        replace hb := Bool.eq_false_iff.mpr hb
        cases h1 : cellValue cells 1 with
        | none => simp [h2, ha, hb]
        | some cv =>
          dsimp only
          by_cases hcp : (PyFloat.finite 0).ltb cv = true
          · rw [if_pos hcp]
            simp [h2, ha, hb, hcp]
            constructor
            · intro h; exact h.symm
            · intro h; exact h.symm
          · rw [if_neg hcp]
            replace hcp := Bool.eq_false_iff.mpr hcp
            simp [h2, ha, hb, hcp]
  · rw [if_neg h2]
    simp [h2]

/-- Claim C2 counterexample: a qualifying table whose data row has the
cells NAN and INF produces a record (the NaN temperature passes both
rejection comparisons, since every comparison with NaN is false, and
the infinite heat capacity satisfies cp > 0), although its column 0
does NOT parse to a temperature within [50, 5000] K; so acceptance is
not equivalent to the claimed condition. -/
theorem c2_counterexample :
    thermoRecordsOfTables
        [⟨["Temperature (K)", "Cp (J/mol*K)"], [[], ["NAN", "INF"]]⟩] =
      [⟨.nan, .pinf, none, none, none⟩] ∧
    cellValue ["NAN", "INF"] 0 = some PyFloat.nan ∧
    PyFloat.nan.isFiniteIn 50 5000 = false := by
  decide

/-- Claim C2 (amended): header gating and row acceptance in
_parse_thermodynamic_tables.  A table whose joined lowercased header
text matches no keyword contributes zero records wherever it appears;
a qualifying table contributes exactly the accepted rows after the
first tr, dropped rows being silently skipped; a row with at least two
cells is accepted if and only if column 0 parses to a value on which
the rejection comparisons value < 50 and value > 5000 are both false
under Python float comparisons (for a finite value this is exactly
membership in [50, 5000]; NaN also passes) and column 1 parses to cp
with cp > 0 true (finite positive, or +inf); and when only two columns
exist the entropy, enthalpy and Gibbs fields are all absent. -/
theorem c2_table_row_filter :
    (∀ (t : HTable) (pre post : List HTable), thermoQualifies t = false →
      thermoRecordsOfTables (pre ++ t :: post) = thermoRecordsOfTables (pre ++ post)) ∧
    (∀ t : HTable, thermoQualifies t = true →
      parseThermoTable t = (t.rows.drop 1).filterMap parseThermoRow) ∧
    (∀ cells : List String, 2 ≤ cells.length →
      ((∃ r, parseThermoRow cells = some r) ↔
        ∃ tv, cellValue cells 0 = some tv ∧ tv.ltb (.finite 50) = false ∧
          (PyFloat.finite 5000).ltb tv = false ∧
          ∃ cv, cellValue cells 1 = some cv ∧ (PyFloat.finite 0).ltb cv = true)) ∧
    (∀ q : ℚ, ((PyFloat.finite q).ltb (.finite 50) = false ∧
        (PyFloat.finite 5000).ltb (.finite q) = false) ↔ (50 ≤ q ∧ q ≤ 5000)) ∧
    (∀ (cells : List String) (r : ThermoRecord), parseThermoRow cells = some r →
      cells.length = 2 →
      r.entropy = none ∧ r.enthalpy_minus_h298 = none ∧ r.gibbs_free_energy = none) := by
  refine ⟨?_, ?_, ?_, ?_, ?_⟩
  · intro t pre post h
    simp [thermoRecordsOfTables, parseThermoTable, h]
  · intro t h
    simp [parseThermoTable, h]
  · intro cells h2
    constructor
    · rintro ⟨r, hr⟩
      obtain ⟨_, tv, cv, h0, ha, hb, h1, hcp, _⟩ := parseThermoRow_eq_some_iff.mp hr
      exact ⟨tv, h0, ha, hb, cv, h1, hcp⟩
    · rintro ⟨tv, h0, ha, hb, cv, h1, hcp⟩
      exact ⟨_, parseThermoRow_eq_some_iff.mpr ⟨h2, tv, cv, h0, ha, hb, h1, hcp, rfl⟩⟩
  · intro q
    simp [PyFloat.ltb, decide_eq_false_iff_not, not_lt]
  · intro cells r hr hlen
    obtain ⟨_, tv, cv, _, _, _, _, _, hre⟩ := parseThermoRow_eq_some_iff.mp hr
    have e2 : cellValue cells 2 = none := by
      unfold cellValue
      rw [List.get?_eq_none.mpr (by omega)]
    have e3 : cellValue cells 3 = none := by
      unfold cellValue
      rw [List.get?_eq_none.mpr (by omega)]
    have e4 : cellValue cells 4 = none := by
      unfold cellValue
      rw [List.get?_eq_none.mpr (by omega)]
    rw [hre]
    simp [e2, e3, e4]

/-- Witness for C2: a keyword-free header makes the whole table
contribute zero records even though its data row would be accepted by
the row filter. -/
theorem c2_witness :
    thermoRecordsOfTables ([] ++ ⟨["Pressure", "Volume"], [[], ["NAN", "INF"]]⟩ :: []) =
      thermoRecordsOfTables ([] ++ []) :=
  c2_table_row_filter.1 ⟨["Pressure", "Volume"], [[], ["NAN", "INF"]]⟩ [] [] (by decide)

/-! ## Auxiliary lemmas about the synthetic generator -/

theorem linspaceQ_length (a b : ℚ) (n : ℕ) : (linspaceQ a b n).length = n := by
  simp only [linspaceQ, List.length_map, List.length_range]

theorem linspaceQ_getD (a b : ℚ) {n i : ℕ} (h : i < n) :
    (linspaceQ a b n).getD i 0 = a + i * ((b - a) / ((n : ℚ) - 1)) := by
  simp only [linspaceQ, List.getD_eq_getElem?_getD, List.getElem?_map,
    List.getElem?_range h]
  rfl

theorem linspaceQ_mem {a b : ℚ} {n : ℕ} {q : ℚ} (h : q ∈ linspaceQ a b n) :
    ∃ i : ℕ, i < n ∧ q = a + i * ((b - a) / ((n : ℚ) - 1)) := by
  simp only [linspaceQ, List.mem_map, List.mem_range] at h
  obtain ⟨i, hi, heq⟩ := h
  exact ⟨i, hi, heq.symm⟩

theorem linspace200_bounds {n : ℕ} (hn : 2 ≤ n) {q : ℚ}
    (h : q ∈ linspaceQ 200 2000 n) : 200 ≤ q ∧ q ≤ 2000 := by
  obtain ⟨i, hi, rfl⟩ := linspaceQ_mem h
  have hn1 : (0 : ℚ) < (n : ℚ) - 1 := by
    have h2 : (2 : ℚ) ≤ (n : ℚ) := by exact_mod_cast hn
    linarith
  have hstep : (0 : ℚ) ≤ (2000 - 200) / ((n : ℚ) - 1) := by positivity
  constructor
  · have : (0 : ℚ) ≤ i * ((2000 - 200) / ((n : ℚ) - 1)) := by positivity
    linarith
  · have hi' : (i : ℚ) ≤ (n : ℚ) - 1 := by
      have : (i : ℚ) + 1 ≤ (n : ℚ) := by exact_mod_cast hi
      linarith
    have hmul := mul_le_mul_of_nonneg_right hi' hstep
    have hcancel : ((n : ℚ) - 1) * ((2000 - 200) / ((n : ℚ) - 1)) = 1800 := by
      field_simp
      norm_num
    linarith

theorem samplesPerCompound_ge5 (existing : ℕ) : 5 ≤ samplesPerCompound existing :=
  le_max_right _ _

theorem syntheticBlock_length (pyHash : String → ℤ) (ln : ℚ → ℚ) (nCp nS nH : ℕ → ℚ)
    (spc ci : ℕ) (c : String) :
    (syntheticBlock pyHash ln nCp nS nH spc ci c).length = spc := by
  simp only [syntheticBlock, List.length_map, List.enum_length, linspaceQ_length]

theorem syntheticBlock_temps (pyHash : String → ℤ) (ln : ℚ → ℚ) (nCp nS nH : ℕ → ℚ)
    (spc ci : ℕ) (c : String) :
    (syntheticBlock pyHash ln nCp nS nH spc ci c).map (fun s => s.temperature) =
      (linspaceQ 200 2000 spc).map PyFloat.finite := by
  unfold syntheticBlock
  rw [List.map_map]
  rw [show ((fun s : TrainingSample => s.temperature) ∘
      (fun p : ℕ × ℚ => syntheticSample pyHash ln nCp nS nH spc ci p.1 c p.2)) =
      (PyFloat.finite ∘ Prod.snd) from rfl]
  rw [← List.map_map, List.enum_map_snd]

theorem syntheticBlock_compound (pyHash : String → ℤ) (ln : ℚ → ℚ) (nCp nS nH : ℕ → ℚ)
    (spc ci : ℕ) (c : String) :
    ∀ s ∈ syntheticBlock pyHash ln nCp nS nH spc ci c, s.compound = c := by
  intro s hs
  simp only [syntheticBlock, List.mem_map] at hs
  obtain ⟨p, _, rfl⟩ := hs
  rfl

theorem syntheticBlock_filter (pyHash : String → ℤ) (ln : ℚ → ℚ) (nCp nS nH : ℕ → ℚ)
    (spc ci : ℕ) (c c1 : String) :
    (syntheticBlock pyHash ln nCp nS nH spc ci c).filter (fun s => s.compound == c1) =
      if c = c1 then syntheticBlock pyHash ln nCp nS nH spc ci c else [] := by
  by_cases h : c = c1
  · subst h
    rw [if_pos rfl]
    apply List.filter_eq_self.mpr
    intro s hs
    have hc := syntheticBlock_compound pyHash ln nCp nS nH spc ci c s hs
    simp [hc]
  · rw [if_neg h]
    apply List.filter_eq_nil_iff.mpr
    intro s hs
    have hc := syntheticBlock_compound pyHash ln nCp nS nH spc ci c s hs
    simp [hc, h]

theorem generate_length (pyHash : String → ℤ) (ln : ℚ → ℚ) (nCp nS nH : ℕ → ℚ)
    (existing : ℕ) :
    (generate_synthetic_supplement pyHash ln nCp nS nH existing).length =
      10 * samplesPerCompound existing := by
  simp [generate_synthetic_supplement, syntheticCompounds, List.enum, syntheticBlock_length]
  omega

theorem generate_mem (pyHash : String → ℤ) (ln : ℚ → ℚ) (nCp nS nH : ℕ → ℚ)
    (existing : ℕ) {s : TrainingSample}
    (hs : s ∈ generate_synthetic_supplement pyHash ln nCp nS nH existing) :
    ∃ ci c ti temp, temp ∈ linspaceQ 200 2000 (samplesPerCompound existing) ∧
      s = syntheticSample pyHash ln nCp nS nH (samplesPerCompound existing) ci ti c temp := by
  unfold generate_synthetic_supplement at hs
  rw [List.mem_flatMap] at hs
  obtain ⟨p, _, hs⟩ := hs
  unfold syntheticBlock at hs
  rw [List.mem_map] at hs
  obtain ⟨q, hq, rfl⟩ := hs
  exact ⟨p.1, p.2, q.1, q.2, List.snd_mem_of_mem_enum hq, rfl⟩

theorem generate_compound_temps (pyHash : String → ℤ) (ln : ℚ → ℚ) (nCp nS nH : ℕ → ℚ)
    (existing : ℕ) {c : String} (hc : c ∈ syntheticCompounds) :
    ((generate_synthetic_supplement pyHash ln nCp nS nH existing).filter
        (fun s => s.compound == c)).map (fun s => s.temperature) =
      (linspaceQ 200 2000 (samplesPerCompound existing)).map PyFloat.finite := by
  fin_cases hc <;>
    simp [generate_synthetic_supplement, syntheticCompounds, List.enum,
      List.filter_append, syntheticBlock_filter, syntheticBlock_temps]

/-! ## Claim C6: the synthetic generator -/

/-- Claim C6 (confirmed): for every existing row count, the generator
produces max((100 - existing) // 10, 5) rows for each of the 10 fixed
compounds (Python integer arithmetic on a nonnegative count coincides
with the Nat arithmetic used here), hence at least 5 per compound and
exactly 100 rows when existing = 0; each compound's temperatures are
exactly np.linspace(200, 2000, rows-per-compound), which starts at
200, ends at 2000 and has constant consecutive differences; every
heat capacity is clamped to at least 10 and every entropy to at least
0, for all values of the Gaussian draws and of the logarithm. -/
theorem c6_synthetic_generator (pyHash : String → ℤ) (ln : ℚ → ℚ)
    (nCp nS nH : ℕ → ℚ) (existing : ℕ) :
    (generate_synthetic_supplement pyHash ln nCp nS nH existing).length =
        10 * max ((100 - existing) / 10) 5 ∧
    5 ≤ samplesPerCompound existing ∧
    (∀ c ∈ syntheticCompounds,
      ((generate_synthetic_supplement pyHash ln nCp nS nH existing).filter
          (fun s => s.compound == c)).map (fun s => s.temperature) =
        (linspaceQ 200 2000 (samplesPerCompound existing)).map PyFloat.finite ∧
      ((generate_synthetic_supplement pyHash ln nCp nS nH existing).filter
          (fun s => s.compound == c)).length = samplesPerCompound existing) ∧
    (∀ s ∈ generate_synthetic_supplement pyHash ln nCp nS nH existing,
      (∃ x, s.heat_capacity = .finite x ∧ 10 ≤ x) ∧
      (∃ x, s.entropy = .finite x ∧ 0 ≤ x) ∧
      ∃ q ∈ linspaceQ 200 2000 (samplesPerCompound existing),
        s.temperature = .finite q ∧ 200 ≤ q ∧ q ≤ 2000) ∧
    (linspaceQ 200 2000 (samplesPerCompound existing)).getD 0 0 = 200 ∧
    (linspaceQ 200 2000 (samplesPerCompound existing)).getD
        (samplesPerCompound existing - 1) 0 = 2000 ∧
    (∀ i, i + 1 < samplesPerCompound existing →
      (linspaceQ 200 2000 (samplesPerCompound existing)).getD (i + 1) 0 -
          (linspaceQ 200 2000 (samplesPerCompound existing)).getD i 0 =
        1800 / ((samplesPerCompound existing : ℚ) - 1)) := by
  have h5 := samplesPerCompound_ge5 existing
  have hn1 : ((samplesPerCompound existing : ℚ) - 1) ≠ 0 := by
    have : (5 : ℚ) ≤ (samplesPerCompound existing : ℚ) := by exact_mod_cast h5
    intro hz
    linarith [this]
  refine ⟨generate_length pyHash ln nCp nS nH existing, h5, ?_, ?_, ?_, ?_, ?_⟩
  · intro c hc
    have hmap := generate_compound_temps pyHash ln nCp nS nH existing hc
    refine ⟨hmap, ?_⟩
    have := congrArg List.length hmap
    rw [List.length_map, List.length_map, linspaceQ_length] at this
    exact this
  · intro s hs
    obtain ⟨ci, c, ti, temp, htemp, rfl⟩ := generate_mem pyHash ln nCp nS nH existing hs
    obtain ⟨hlo, hhi⟩ := linspace200_bounds (by omega) htemp
    exact ⟨⟨_, rfl, le_max_right _ _⟩, ⟨_, rfl, le_max_right _ _⟩,
      temp, htemp, rfl, hlo, hhi⟩
  · rw [linspaceQ_getD 200 2000 (by omega)]
    norm_num
  · rw [linspaceQ_getD 200 2000 (by omega : samplesPerCompound existing - 1 <
      samplesPerCompound existing)]
    have hcast : ((samplesPerCompound existing - 1 : ℕ) : ℚ) =
        (samplesPerCompound existing : ℚ) - 1 := by
      have : 1 ≤ samplesPerCompound existing := by omega
      push_cast [this]
      ring
    rw [hcast]
    field_simp
  · intro i hi
    rw [linspaceQ_getD 200 2000 hi, linspaceQ_getD 200 2000 (by omega : i <
      samplesPerCompound existing)]
    push_cast
    ring_nf

/-- Witness for C6: instantiated at existing = 0, zero noise and zero
logarithm, for the compound H2O. -/
theorem c6_witness :
    ((generate_synthetic_supplement (fun _ => 0) (fun _ => 0) (fun _ => 0) (fun _ => 0)
        (fun _ => 0) 0).filter (fun s => s.compound == "H2O")).map (fun s => s.temperature) =
      (linspaceQ 200 2000 (samplesPerCompound 0)).map PyFloat.finite ∧
    ((generate_synthetic_supplement (fun _ => 0) (fun _ => 0) (fun _ => 0) (fun _ => 0)
        (fun _ => 0) 0).filter (fun s => s.compound == "H2O")).length = samplesPerCompound 0 :=
  (c6_synthetic_generator (fun _ => 0) (fun _ => 0) (fun _ => 0) (fun _ => 0)
    (fun _ => 0) 0).2.2.1 "H2O" (by decide)

/-! ## Claim C1: the top-level fallback -/

/-- Claim C1 (confirmed): whatever the pipeline does, the top level
returns a nonempty training table: the try branch returns the
collect_hackathon_dataset result, which is topped up with at least
50 synthetic rows whenever it has fewer than 50; and when any
exception escapes the pipeline, main catches it and returns exactly
generate_synthetic_supplement(0), which has 100 rows.  (File writing
is outside the embedding; nonemptiness of the returned table is the
modelled content.) -/
theorem c1_top_level_fallback (pyHash : String → ℤ) (ln : ℚ → ℚ) (nCp nS nH : ℕ → ℚ) :
    (∀ run : PipelineRun, 0 < (mainPipeline pyHash ln nCp nS nH run).length) ∧
    mainPipeline pyHash ln nCp nS nH .failed =
      generate_synthetic_supplement pyHash ln nCp nS nH 0 ∧
    (generate_synthetic_supplement pyHash ln nCp nS nH 0).length = 100 := by
  have hlen : ∀ n, (generate_synthetic_supplement pyHash ln nCp nS nH n).length =
      10 * samplesPerCompound n := fun n => generate_length pyHash ln nCp nS nH n
  refine ⟨?_, rfl, ?_⟩
  · intro run
    cases run with
    | failed =>
      have h5 := samplesPerCompound_ge5 0
      have := hlen 0
      simp only [mainPipeline]
      omega
    | ok raw =>
      simp only [mainPipeline, collect_hackathon_dataset]
      split
      next h =>
        rw [List.length_append, hlen]
        have := samplesPerCompound_ge5 (process_for_training pyHash raw).length
        omega
      next h => omega
  · rw [hlen 0]
    rfl

/-! ## Auxiliary lemmas for the final-table invariants -/

theorem ltb_zero_finite_of_pos {q : ℚ} (h : 0 < q) :
    (PyFloat.finite 0).ltb (.finite q) = true := by
  simp [PyFloat.ltb, h]

/-- Every record accepted by the thermodynamic parser has cp > 0 under
Python float comparison. -/
theorem thermoRecords_cp_pos {tabs : List HTable} {r : ThermoRecord}
    (h : r ∈ thermoRecordsOfTables tabs) :
    (PyFloat.finite 0).ltb r.heat_capacity = true := by
  unfold thermoRecordsOfTables at h
  rw [List.mem_flatMap] at h
  obtain ⟨t, _, ht⟩ := h
  unfold parseThermoTable at ht
  split at ht
  · rw [List.mem_filterMap] at ht
    obtain ⟨cells, _, hrow⟩ := ht
    obtain ⟨_, tv, cv, _, _, _, _, hcp, hre⟩ := parseThermoRow_eq_some_iff.mp hrow
    rw [hre]
    exact hcp
  · simp at ht

/-- A Python float between two finite bounds is finite and lies
between them. -/
theorem leb_between {x : PyFloat} (h1 : (PyFloat.finite 200).leb x = true)
    (h2 : x.leb (.finite 2000) = true) :
    ∃ q, x = .finite q ∧ 200 ≤ q ∧ q ≤ 2000 := by
  cases x with
  | finite q =>
    refine ⟨q, rfl, ?_, ?_⟩
    · simpa [PyFloat.leb] using h1
    · simpa [PyFloat.leb] using h2
  | pinf => simp [PyFloat.leb] at h2
  | ninf => simp [PyFloat.leb] at h1
  | nan => simp [PyFloat.leb] at h1

theorem processRecords_mem {pyHash : String → ℤ} {c : String}
    {recs : List ThermoRecord} {s : TrainingSample}
    (hs : s ∈ processRecords pyHash c recs) :
    ∃ r ∈ recs, s = mkSample pyHash c r ∧
      (PyFloat.finite 200).leb r.temperature = true ∧
      r.temperature.leb (.finite 2000) = true := by
  unfold processRecords at hs
  rw [List.mem_map] at hs
  obtain ⟨r, hr, rfl⟩ := hs
  obtain ⟨hr1, hcmp⟩ := List.mem_filter.mp hr
  obtain ⟨hmem, _⟩ := List.mem_filter.mp hr1
  rw [Bool.and_eq_true] at hcmp
  exact ⟨r, hmem, rfl, hcmp.1, hcmp.2⟩

theorem process_mem {pyHash : String → ℤ} {raw : List (String × CompoundData)}
    {s : TrainingSample} (hs : s ∈ process_for_training pyHash raw) :
    ∃ p ∈ raw, ∃ recs, p.2.thermodynamic_data = some recs ∧
      s ∈ processRecords pyHash p.1 recs := by
  unfold process_for_training at hs
  rw [List.mem_flatMap] at hs
  obtain ⟨p, hp, hs⟩ := hs
  cases hmatch : p.2.thermodynamic_data with
  | none => rw [hmatch] at hs; simp at hs
  | some recs =>
    rw [hmatch] at hs
    exact ⟨p, hp, recs, hmatch, hs⟩

/-- Every synthetic sample satisfies the final-table invariants. -/
theorem generate_inv {pyHash : String → ℤ} {ln : ℚ → ℚ} {nCp nS nH : ℕ → ℚ}
    {existing : ℕ} {s : TrainingSample}
    (hs : s ∈ generate_synthetic_supplement pyHash ln nCp nS nH existing) :
    (∃ q, s.temperature = .finite q ∧ 200 ≤ q ∧ q ≤ 2000) ∧
    (PyFloat.finite 0).ltb s.heat_capacity = true ∧
    s.molecular_weight = (get_molecular_properties s.compound).molecular_weight ∧
    s.n_atoms = (get_molecular_properties s.compound).n_atoms ∧
    s.is_polar = (get_molecular_properties s.compound).is_polar := by
  obtain ⟨ci, c, ti, temp, htemp, rfl⟩ := generate_mem pyHash ln nCp nS nH existing hs
  have h5 := samplesPerCompound_ge5 existing
  obtain ⟨hlo, hhi⟩ := linspace200_bounds (by omega) htemp
  refine ⟨⟨temp, rfl, hlo, hhi⟩, ?_, rfl, rfl, rfl⟩
  exact ltb_zero_finite_of_pos (lt_of_lt_of_le (by norm_num) (le_max_right _ 10))

/-! ## Claim C7: invariants of every final-table row -/

/-- Claim C7 (confirmed): every row of the table returned by the top
level, whether built from parser records (the hypothesis says the raw
data records come from the thermodynamic parser, as they do in the
pipeline), from the synthetic supplement, or from the emergency
fallback, has a finite temperature within [200, 2000] K (real rows
are filtered to that range after NaN temperatures are dropped by
dropna, and non-finite temperatures fail the range comparisons;
synthetic temperatures are linspace points of that interval), has
heat capacity strictly greater than 0 under Python float comparison
(for real rows this comes from the parser's cp > 0 acceptance check
and can be +inf; synthetic rows are clamped to at least 10), and
carries the molecular_weight, n_atoms and is_polar values of its
compound's entry in the static molecular-properties table, which are
always present (unknown compounds receive the documented default). -/
theorem c7_final_table_invariants (pyHash : String → ℤ) (ln : ℚ → ℚ)
    (nCp nS nH : ℕ → ℚ) (run : PipelineRun)
    (hsrc : ∀ raw, run = .ok raw → ∀ p ∈ raw, ∀ recs,
      p.2.thermodynamic_data = some recs → ∃ tabs, recs = thermoRecordsOfTables tabs) :
    ∀ s ∈ mainPipeline pyHash ln nCp nS nH run,
      (∃ q, s.temperature = .finite q ∧ 200 ≤ q ∧ q ≤ 2000) ∧
      (PyFloat.finite 0).ltb s.heat_capacity = true ∧
      s.molecular_weight = (get_molecular_properties s.compound).molecular_weight ∧
      s.n_atoms = (get_molecular_properties s.compound).n_atoms ∧
      s.is_polar = (get_molecular_properties s.compound).is_polar := by
  intro s hs
  cases run with
  | failed => exact generate_inv hs
  | ok raw =>
    have hproc : ∀ x ∈ process_for_training pyHash raw,
        (∃ q, x.temperature = PyFloat.finite q ∧ 200 ≤ q ∧ q ≤ 2000) ∧
        (PyFloat.finite 0).ltb x.heat_capacity = true ∧
        x.molecular_weight = (get_molecular_properties x.compound).molecular_weight ∧
        x.n_atoms = (get_molecular_properties x.compound).n_atoms ∧
        x.is_polar = (get_molecular_properties x.compound).is_polar := by
      intro x hx
      obtain ⟨p, hp, recs, hrecs, hmem⟩ := process_mem hx
      obtain ⟨r, hr, rfl, hle1, hle2⟩ := processRecords_mem hmem
      obtain ⟨q, hq, hlo, hhi⟩ := leb_between hle1 hle2
      obtain ⟨tabs, htabs⟩ := hsrc raw rfl p hp recs hrecs
      have hcp := thermoRecords_cp_pos (htabs ▸ hr)
      refine ⟨⟨q, ?_, hlo, hhi⟩, hcp, rfl, rfl, rfl⟩
      rw [show (mkSample pyHash p.1 r).temperature = r.temperature from rfl, hq]
    simp only [mainPipeline, collect_hackathon_dataset] at hs
    split at hs
    · rcases List.mem_append.mp hs with h1 | h2
      · exact hproc s h1
      · exact generate_inv h2
    · exact hproc s hs

/-- Witness for C7: the emergency branch at concrete parameters,
specialized to the first generated row; the record-origin hypothesis
is vacuous since the run failed. -/
theorem c7_witness :
    (∃ q, emergencyHead.temperature = .finite q ∧ 200 ≤ q ∧ q ≤ 2000) ∧
    (PyFloat.finite 0).ltb emergencyHead.heat_capacity = true ∧
    emergencyHead.molecular_weight =
      (get_molecular_properties emergencyHead.compound).molecular_weight ∧
    emergencyHead.n_atoms = (get_molecular_properties emergencyHead.compound).n_atoms ∧
    emergencyHead.is_polar = (get_molecular_properties emergencyHead.compound).is_polar :=
  c7_final_table_invariants (fun _ => 0) (fun _ => 0) (fun _ => 0) (fun _ => 0)
    (fun _ => 0) .failed (fun _raw h => nomatch h) emergencyHead
    (List.mem_cons_self _ _)

/-! ## Auxiliary lemmas for serialization round-tripping -/

/-- The per-compound aggregation cannot tell a record list from its
save/load round trip: both comparisons and the built sample read only
fields that the round trip preserves (absent entries come back as NaN,
and the sample construction reads them through the same NaN default). -/
theorem processRecords_load_save (pyHash : String → ℤ) (c : String)
    (recs : List ThermoRecord) :
    processRecords pyHash c (recs.map (fun r => loadRecord (serRecord r))) =
      processRecords pyHash c recs := by
  induction recs with
  | nil => rfl
  | cons r t ih =>
    unfold processRecords at ih ⊢
    simp only [List.map_cons, List.filter_cons]
    have e1 : (!(loadRecord (serRecord r)).temperature.isNanB &&
        !(loadRecord (serRecord r)).heat_capacity.isNanB) =
        (!r.temperature.isNanB && !r.heat_capacity.isNanB) := rfl
    rw [e1]
    by_cases h1 : (!r.temperature.isNanB && !r.heat_capacity.isNanB) = true
    · rw [if_pos h1, if_pos h1, List.filter_cons, List.filter_cons]
      have e2 : ((PyFloat.finite 200).leb (loadRecord (serRecord r)).temperature &&
          (loadRecord (serRecord r)).temperature.leb (.finite 2000)) =
          ((PyFloat.finite 200).leb r.temperature && r.temperature.leb (.finite 2000)) := rfl
      rw [e2]
      by_cases h2 : ((PyFloat.finite 200).leb r.temperature &&
          r.temperature.leb (.finite 2000)) = true
      · rw [if_pos h2, if_pos h2, List.map_cons, List.map_cons]
        have e3 : mkSample pyHash c (loadRecord (serRecord r)) = mkSample pyHash c r := rfl
        rw [e3, ih]
      · rw [if_neg h2, if_neg h2, ih]
    · rw [if_neg h1, if_neg h1, ih]

/-! ## Claim C8: save / load / re-aggregate idempotence -/

/-- Claim C8 (confirmed): re-running the aggregation on a reloaded
snapshot gives exactly the table of the original run, including every
derived compound_id (the Python string hash is an ambient parameter
pyHash held fixed across the two runs, as a fixed PYTHONHASHSEED
makes it; process_for_training draws no randomness itself).  The
hypothesis excludes present-but-empty record lists, which the parser
never produces and on which the Python load would leave a raw list
that the aggregation cannot consume. -/
theorem c8_save_load_idempotent (pyHash : String → ℤ)
    (d : List (String × CompoundData))
    (h : ∀ p ∈ d, p.2.thermodynamic_data ≠ some []) :
    process_for_training pyHash (load_data (save_data d)) =
      process_for_training pyHash d := by
  induction d with
  | nil => rfl
  | cons p t ih =>
    have htail := ih (fun q hq => h q (List.mem_cons_of_mem p hq))
    have hstep : ∀ (l : List (String × CompoundData)) (x : String × CompoundData),
        process_for_training pyHash (x :: l) =
          (match x.2.thermodynamic_data with
           | none => []
           | some recs => processRecords pyHash x.1 recs) ++
            process_for_training pyHash l := by
      intro l x
      simp [process_for_training]
    have hcons : load_data (save_data (p :: t)) =
        (p.1, ⟨p.2.formula, p.2.compound_id,
          match (p.2.thermodynamic_data.map (List.map serRecord)) with
          | none => none
          | some l => if l.isEmpty then some [] else some (l.map loadRecord),
          p.2.phase_change_data⟩) :: load_data (save_data t) := rfl
    rw [hcons, hstep, hstep, htail]
    congr 1
    cases hth : p.2.thermodynamic_data with
    | none => rfl
    | some recs =>
      have hne : recs ≠ [] := fun he => h p (List.mem_cons_self p t) (by rw [hth, he])
      have hemp : (recs.map serRecord).isEmpty = false := by
        cases recs with
        | nil => exact absurd rfl hne
        | cons a b => rfl
      simp [hemp, List.map_map]
      exact processRecords_load_save pyHash p.1 recs

/-- Witness for C8: a one-compound snapshot with a single in-range
record round-trips to the same training table. -/
theorem c8_witness :
    process_for_training (fun _ => 7)
        (load_data (save_data [("H2O", ⟨"H2O", "C7732185",
          some [⟨.finite 300, .finite 30, none, none, none⟩], emptyPhase⟩)])) =
      process_for_training (fun _ => 7)
        [("H2O", ⟨"H2O", "C7732185",
          some [⟨.finite 300, .finite 30, none, none, none⟩], emptyPhase⟩)] :=
  c8_save_load_idempotent (fun _ => 7) _ (by decide)

/-! ## Auxiliary lemmas for the checkpointing scrape loop -/

theorem scrapeStep_results (sp : Bool) (wf : ℕ → Bool) (st : ScrapeState) (i0 : ℕ)
    (out : ScrapeOutcome) (c : String) :
    (scrapeStep sp wf st i0 out c).results =
      (match out with
       | .found d => dictInsert st.results c d
       | _ => st.results) := by
  cases out with
  | errors => rfl
  | nodata => rfl
  | found d =>
    simp only [scrapeStep]
    split
    · split <;> rfl
    · rfl

theorem scrapeLoop_results (outs : ℕ → ScrapeOutcome) (wf : ℕ → Bool) (sp : Bool) :
    ∀ (cs : List String) (i : ℕ) (st : ScrapeState),
      (scrapeLoop outs wf sp i st cs).results = resultsOnly outs i st.results cs := by
  intro cs
  induction cs with
  | nil => intro i st; rfl
  | cons c rest ih =>
    intro i st
    rw [show scrapeLoop outs wf sp i st (c :: rest) =
        scrapeLoop outs wf sp (i + 1) (scrapeStep sp wf st i (outs i) c) rest from rfl]
    rw [ih]
    rw [show resultsOnly outs i st.results (c :: rest) =
        resultsOnly outs (i + 1)
          (match outs i with
           | .found d => dictInsert st.results c d
           | _ => st.results) rest from rfl]
    rw [scrapeStep_results]

theorem scrapeStep_writes (sp : Bool) (wf : ℕ → Bool) (st : ScrapeState) (i0 : ℕ)
    (out : ScrapeOutcome) (c : String) (i : ℕ) (r : List (String × CompoundData)) :
    ((i, r) ∈ (scrapeStep sp wf st i0 out c).writes ↔
      (i, r) ∈ st.writes ∨
      (i = i0 ∧ sp = true ∧ (i0 + 1) % 5 = 0 ∧ wf i0 = false ∧
       ∃ d, out = .found d ∧ r = dictInsert st.results c d)) := by
  cases out with
  | errors => simp [scrapeStep]
  | nodata => simp [scrapeStep]
  | found d =>
    simp only [scrapeStep]
    by_cases hc : (sp && (i0 + 1) % 5 == 0) = true
    · rw [if_pos hc]
      rw [Bool.and_eq_true, beq_iff_eq] at hc
      by_cases hw : wf i0 = true
      · rw [if_pos hw]
        simp [hw]
      · rw [if_neg hw]
        simp [List.mem_append, Prod.ext_iff, hc.1, hc.2, Bool.eq_false_iff.mpr hw]
    · rw [if_neg hc]
      constructor
      · exact Or.inl
      · rintro (hin | ⟨_, hsp, hmod, _⟩)
        · exact hin
        · exact absurd (by simp [hsp, hmod]) hc

theorem scrapeLoop_writes (outs : ℕ → ScrapeOutcome) (wf : ℕ → Bool) (sp : Bool) :
    ∀ (cs : List String) (i0 : ℕ) (st : ScrapeState) (i : ℕ)
      (r : List (String × CompoundData)),
      ((i, r) ∈ (scrapeLoop outs wf sp i0 st cs).writes ↔
        (i, r) ∈ st.writes ∨
        (i0 ≤ i ∧ i < i0 + cs.length ∧ sp = true ∧ (i + 1) % 5 = 0 ∧ wf i = false ∧
         (∃ d, outs i = .found d) ∧
         r = resultsOnly outs i0 st.results (cs.take (i + 1 - i0)))) := by
  intro cs
  induction cs with
  | nil =>
    intro i0 st i r
    constructor
    · exact Or.inl
    · rintro (hin | ⟨h1, h2, -⟩)
      · exact hin
      · simp only [List.length_nil] at h2
        omega
  | cons c rest ih =>
    intro i0 st i r
    rw [show scrapeLoop outs wf sp i0 st (c :: rest) =
        scrapeLoop outs wf sp (i0 + 1) (scrapeStep sp wf st i0 (outs i0) c) rest from rfl]
    rw [ih, scrapeStep_writes]
    have hres := scrapeStep_results sp wf st i0 (outs i0) c
    constructor
    · rintro ((hin | ⟨hi, hsp, hmod, hwf, d, hd, hr⟩) | ⟨h1, h2, hsp, hmod, hwf, hd, hr⟩)
      · exact Or.inl hin
      · subst hi
        refine Or.inr ⟨le_refl i, ?_, hsp, hmod, hwf, ⟨d, hd⟩, ?_⟩
        · simp only [List.length_cons]
          omega
        · rw [show i + 1 - i = 1 from by omega]
          rw [show (c :: rest).take 1 = [c] from rfl]
          rw [show resultsOnly outs i st.results [c] =
              (match outs i with
               | .found d => dictInsert st.results c d
               | _ => st.results) from rfl]
          rw [hd, hr]
      · refine Or.inr ⟨by omega, ?_, hsp, hmod, hwf, hd, ?_⟩
        · simp only [List.length_cons]
          omega
        · rw [hr, hres]
          rw [show i + 1 - i0 = (i - i0) + 1 from by omega]
          rw [show (c :: rest).take ((i - i0) + 1) = c :: rest.take (i - i0) from rfl]
          rw [show resultsOnly outs i0 st.results (c :: rest.take (i - i0)) =
              resultsOnly outs (i0 + 1)
                (match outs i0 with
                 | .found d => dictInsert st.results c d
                 | _ => st.results) (rest.take (i - i0)) from rfl]
          rw [show i + 1 - (i0 + 1) = i - i0 from by omega]
    · rintro (hin | ⟨h1, h2, hsp, hmod, hwf, ⟨d, hd⟩, hr⟩)
      · exact Or.inl (Or.inl hin)
      · by_cases hi : i = i0
        · subst hi
          refine Or.inl (Or.inr ⟨rfl, hsp, hmod, hwf, d, hd, ?_⟩)
          rw [hr]
          rw [show i + 1 - i = 1 from by omega]
          rw [show (c :: rest).take 1 = [c] from rfl]
          rw [show resultsOnly outs i st.results [c] =
              (match outs i with
               | .found d => dictInsert st.results c d
               | _ => st.results) from rfl]
          rw [hd]
        · have hgt : i0 + 1 ≤ i := by omega
          refine Or.inr ⟨hgt, ?_, hsp, hmod, hwf, ⟨d, hd⟩, ?_⟩
          · simp only [List.length_cons] at h2
            omega
          · rw [hr, hres]
            rw [show i + 1 - i0 = (i - i0) + 1 from by omega]
            rw [show (c :: rest).take ((i - i0) + 1) = c :: rest.take (i - i0) from rfl]
            rw [show resultsOnly outs i0 st.results (c :: rest.take (i - i0)) =
                resultsOnly outs (i0 + 1)
                  (match outs i0 with
                   | .found d => dictInsert st.results c d
                   | _ => st.results) (rest.take (i - i0)) from rfl]
            rw [show i + 1 - (i0 + 1) = i - i0 from by omega]

/-! ## Claim C9: checkpointing in scrape_multiple_compounds -/

/-- Claim C9 counterexample: with save_progress on and a file system
that never fails, a five-compound run whose FIFTH compound returns no
data performs no serialization at all, because the checkpoint sits
inside the if-data block: the accumulated results of the first four
compounds are not written after the 5th compound is processed, which
the claim asserts. -/
theorem c9_counterexample :
    (scrape_multiple_compounds
        (fun i => if i = 4 then .nodata else .found ⟨"X", "C1", none, emptyPhase⟩)
        (fun _ => false) true ["a", "b", "c", "d", "e"]).writes = [] ∧
    (["a", "b", "c", "d", "e"] : List String).length = 5 ∧
    (scrape_multiple_compounds
        (fun i => if i = 4 then .nodata else .found ⟨"X", "C1", none, emptyPhase⟩)
        (fun _ => false) true ["a", "b", "c", "d", "e"]).results.length = 4 := by
  decide

/-- Claim C9 (amended): the accumulated results are independent of
write failures (a failed checkpoint write is caught by the
per-compound handler and collection continues: the final results equal
those of a run whose writes all succeed), and a successful
serialization of the accumulated results of the first i+1 compounds
happens exactly after the i-th compound when i+1 is a multiple of 5,
save_progress is set, the write does not fail, AND that compound
itself returned data. -/
theorem c9_checkpointing (outs : ℕ → ScrapeOutcome) (wf : ℕ → Bool) (sp : Bool)
    (cs : List String) :
    (scrape_multiple_compounds outs wf sp cs).results =
      (scrape_multiple_compounds outs (fun _ => false) sp cs).results ∧
    (∀ i r, (i, r) ∈ (scrape_multiple_compounds outs wf sp cs).writes ↔
      (i < cs.length ∧ sp = true ∧ (i + 1) % 5 = 0 ∧ wf i = false ∧
       (∃ d, outs i = .found d) ∧
       r = (scrape_multiple_compounds outs wf sp (cs.take (i + 1))).results)) := by
  constructor
  · unfold scrape_multiple_compounds
    rw [scrapeLoop_results outs wf sp cs 0 ⟨[], []⟩,
      scrapeLoop_results outs (fun _ => false) sp cs 0 ⟨[], []⟩]
  · intro i r
    unfold scrape_multiple_compounds
    rw [scrapeLoop_writes outs wf sp cs 0 ⟨[], []⟩ i r,
      scrapeLoop_results outs wf sp (cs.take (i + 1)) 0 ⟨[], []⟩]
    simp only [List.not_mem_nil, false_or, Nat.zero_le, true_and, Nat.zero_add,
      Nat.sub_zero]

/-- Witness for C9: a run in which every checkpoint write raises has
the same accumulated results as one in which every write succeeds. -/
theorem c9_witness :
    (scrape_multiple_compounds (fun _ => .found ⟨"X", "C1", none, emptyPhase⟩)
        (fun _ => true) true ["a", "b", "c", "d", "e"]).results =
      (scrape_multiple_compounds (fun _ => .found ⟨"X", "C1", none, emptyPhase⟩)
        (fun _ => false) true ["a", "b", "c", "d", "e"]).results :=
  (c9_checkpointing (fun _ => .found ⟨"X", "C1", none, emptyPhase⟩)
    (fun _ => true) true ["a", "b", "c", "d", "e"]).1
